import Mathlib

/-!
# Comments resource of the blog service

A shallow embedding of `api/v1/comment.go` (the request handlers) and
`storage/postgres/comment.go` (the comment store).

Conventions of the embedding:

* Go `int` and `int64` are 64-bit signed, `int32` is 32-bit signed; values are
  carried as `Int` and every narrowing conversion or `int32` operation is an
  explicit wrap-around (`wrap32`).
* A Go slice is an `Option (List α)`: `none` is the nil slice, `some []` the
  empty non-nil slice.
* The relational backend is a pair of tables.  A statement either fails with
  the error handed in as `fault` (connectivity, constraint violation, ...) or
  runs on the tables.
* Timestamps are abstract integers.
-/

namespace Blog

/-! ## Errors and machine integers -/

/-- Errors that travel through the handlers.  `ErrNoRows` is `sql.ErrNoRows`;
`SyntaxErr` and `RangeErr` are the two `strconv.NumError` causes. -/
inductive Err where
  | ErrNoRows
  | SyntaxErr (s : String)
  | RangeErr (s : String)
  | Bind (msg : String)
  | Auth (msg : String)
  | Driver (msg : String)
  deriving DecidableEq, Repr

deriving instance DecidableEq for Except

/-- Conversion of an integer to Go `int32`: two's-complement wrap-around. -/
def wrap32 (n : Int) : Int := (n + 2147483648) % 4294967296 - 2147483648

/-- Smallest Go `int` (64-bit). -/
def minInt : Int := -9223372036854775808

/-- Largest Go `int` (64-bit). -/
def maxInt : Int := 9223372036854775807

/-- Smallest `int32`. -/
def minInt32 : Int := -2147483648

/-- Largest `int32`. -/
def maxInt32 : Int := 2147483647

/-! ## `strconv.Atoi` -/

/-- A decimal digit byte. -/
def isDigit (c : Char) : Bool := decide ('0'.toNat ≤ c.toNat) && decide (c.toNat ≤ '9'.toNat)

/-- Split an optional leading sign off: the flag says whether it was `-`. -/
def splitSign : List Char → Bool × List Char
  | '-' :: r => (true, r)
  | '+' :: r => (false, r)
  | r => (false, r)

/-- The digit loop of `strconv.ParseUint` in base 10 with 64 bits, from the
left: a byte that is no digit is a syntax error, a value that leaves `uint64`
is a range error, whichever comes first.  `s` is the whole input, which the
error carries. -/
def scanDigits (s : String) : List Char → Nat → Except Err Nat
  | [], n => .ok n
  | c :: cs, n =>
    if !isDigit c then .error (.SyntaxErr s)
    else if 18446744073709551616 ≤ n * 10 + (c.toNat - '0'.toNat) then .error (.RangeErr s)
    else scanDigits s cs (n * 10 + (c.toNat - '0'.toNat))

/-- Go `strconv.Atoi` on a 64-bit platform: an optional sign, then one or more
decimal digits read by `scanDigits` (an empty run is a syntax error), and the
signed value has to fit `int` (range error otherwise). -/
def Atoi (s : String) : Except Err Int :=
  if (splitSign s.toList).2.isEmpty then .error (.SyntaxErr s)
  else
    match scanDigits s (splitSign s.toList).2 0 with
    | .error err => .error err
    | .ok un =>
      if (splitSign s.toList).1 then
        if 9223372036854775808 < un then .error (.RangeErr s) else .ok (-(un : Int))
      else
        if 9223372036854775808 ≤ un then .error (.RangeErr s) else .ok (un : Int)

/-- Go `fmt.Sprintf("%d", n)` for a signed integer. -/
def fmtD (n : Int) : String :=
  if n < 0 then "-" ++ Nat.repr n.natAbs else Nat.repr n.toNat

/-- Conversion of an integer to Go `int64`: two's-complement wrap-around. -/
def wrap64 (n : Int) : Int :=
  (n + 9223372036854775808) % 18446744073709551616 - 9223372036854775808

/-! ## Records of `storage/repo` and `api/models`

The declarations of these packages are fixed by how the two source files use
them: the fields read and written, and the conversions applied to them. -/

/-- Abstract timestamp. -/
abbrev Time := Int

namespace repo

/-- The `User` struct embedded in `repo.Comment` (fields scanned by `GetAll`). -/
structure CommentUser where
  FirstName : String
  LastName : String
  Email : String
  ProfileImageUrl : String
  deriving DecidableEq, Repr

/-- Record `repo.Comment`. -/
structure Comment where
  ID : Int
  UserID : Int
  PostID : Int
  Description : String
  CreatedAt : Time
  UpdatedAt : Option Time
  User : CommentUser
  deriving DecidableEq, Repr

/-- Record `repo.GetAllCommentsParams`: `Page`, `Limit` are `int32`, the two
filters `int64`. -/
structure GetAllCommentsParams where
  Page : Int
  Limit : Int
  UserID : Int
  PostID : Int
  deriving DecidableEq, Repr

/-- Record `repo.GetAllCommentsResult`; `Comments` is a slice. -/
structure GetAllCommentsResult where
  Comments : Option (List Comment)
  Count : Int
  deriving DecidableEq, Repr

end repo

namespace models

/-- Body of a create request: the two fields `CreateComment` reads. -/
structure CreateCommentRequest where
  Description : String
  PostID : Int
  deriving DecidableEq, Repr

/-- Record `models.CommentUser`. -/
structure CommentUser where
  ID : Int
  FirstName : String
  LastName : String
  Email : String
  ProfileImageUrl : String
  deriving DecidableEq, Repr

/-- Record `models.Comment`; `User` is a pointer that `parseCommentModel`
always sets. -/
structure Comment where
  ID : Int
  UserID : Int
  PostID : Int
  Description : String
  CreatedAt : Time
  UpdatedAt : Option Time
  User : CommentUser
  deriving DecidableEq, Repr

/-- Record `models.GetAllCommentsParams`, the validated query. -/
structure GetAllCommentsParams where
  Limit : Int
  Page : Int
  UserID : Int
  PostID : Int
  deriving DecidableEq, Repr

/-- Record `models.GetAllCommentsResponse`; `Comments` is a slice. -/
structure GetAllCommentsResponse where
  Comments : Option (List Comment)
  Count : Int
  deriving DecidableEq, Repr

/-- Record `models.ResponseOK`. -/
structure ResponseOK where
  Message : String
  deriving DecidableEq, Repr

end models

/-- The authenticated identity `GetAuthPayload` yields. -/
structure Payload where
  UserID : Int
  deriving DecidableEq, Repr

/-! ## The relational backend -/

/-- A row of `comments(id, user_id, post_id, description, created_at, updated_at)`. -/
structure CommentRow where
  id : Int
  user_id : Int
  post_id : Int
  description : String
  created_at : Time
  updated_at : Option Time
  deriving DecidableEq, Repr

/-- A row of `users(id, first_name, last_name, email, profile_image_url)`. -/
structure UserRow where
  id : Int
  first_name : String
  last_name : String
  email : String
  profile_image_url : String
  deriving DecidableEq, Repr

/-- The database: both tables, the next value of the `comments.id` sequence
and the clock that fills `created_at`. -/
structure DB where
  comments : List CommentRow
  users : List UserRow
  nextID : Int
  now : Time
  deriving DecidableEq, Repr

/-- Go `append` on a slice. -/
def sliceAppend {α : Type} (s : Option (List α)) (x : α) : Option (List α) :=
  match s with
  | none => some [x]
  | some xs => some (xs ++ [x])

/-- Elements visited by `range` over a slice (none for the nil slice). -/
def sliceElems {α : Type} (s : Option (List α)) : List α :=
  match s with
  | none => []
  | some xs => xs

/-! ## What the backend does with the statements of the store -/

/-- One conjunct that `GetAll` appends to its `WHERE true` clause. -/
inductive Cond where
  | userID (n : Int)
  | postID (n : Int)
  deriving DecidableEq, Repr

/-- The list statement of `GetAll` as the backend reads it: the conjuncts of the
filter, ordered by `c.created_at desc`, with its `LIMIT` and `OFFSET`. -/
structure ListStmt where
  conds : List Cond
  limit : Int
  offset : Int
  deriving DecidableEq, Repr

/-- Rows of `comments c INNER JOIN users u ON u.id=c.user_id`. -/
def joined (db : DB) : List (CommentRow × UserRow) :=
  db.comments.flatMap fun c => (db.users.filter fun u => u.id = c.user_id).map fun u => (c, u)

/-- Whether a joined row satisfies a conjunct. -/
def Cond.holds : Cond → CommentRow × UserRow → Bool
  | .userID n, r => r.1.user_id = n
  | .postID n, r => r.1.post_id = n

/-- Joined rows that satisfy `WHERE true AND ...`. -/
def selected (db : DB) (conds : List Cond) : List (CommentRow × UserRow) :=
  (joined db).filter fun r => conds.all fun c => c.holds r

/-- The relation of `ORDER BY c.created_at desc`. -/
def newerEq (a b : CommentRow × UserRow) : Prop := b.1.created_at ≤ a.1.created_at

instance : DecidableRel newerEq :=
  fun a b => inferInstanceAs (Decidable (b.1.created_at ≤ a.1.created_at))

/-- Rows in creation-time-descending order (rows of equal time keep their
table order). -/
def newestFirst (rows : List (CommentRow × UserRow)) : List (CommentRow × UserRow) :=
  rows.insertionSort newerEq

/-- Evaluation of the list statement.  The backend rejects a negative `LIMIT`
or `OFFSET`. -/
def runList (db : DB) (q : ListStmt) : Except Err (List (CommentRow × UserRow)) :=
  if q.limit < 0 then .error (.Driver "LIMIT must not be negative")
  else if q.offset < 0 then .error (.Driver "OFFSET must not be negative")
  else .ok (((newestFirst (selected db q.conds)).drop q.offset.toNat).take q.limit.toNat)

/-- Evaluation of the count statement `SELECT count(1) ...` with a filter. -/
def runCount (db : DB) (conds : List Cond) : Int := ((selected db conds).length : Int)

/-- Text of a conjunct. -/
def Cond.render : Cond → String
  | .userID n => " AND c.user_id=" ++ fmtD n ++ " "
  | .postID n => " AND c.post_id=" ++ fmtD n ++ " "

/-- Text of a filter. -/
def renderFilter (conds : List Cond) : String :=
  conds.foldl (fun acc c => acc ++ c.render) " WHERE true "

/-- The fixed head of the list statement. -/
def listHead : String :=
  "\n\t\tSELECT\n\t\t\tc.id,\n\t\t\tc.user_id,\n\t\t\tc.post_id,\n\t\t\tc.description,\n\t\t\tc.created_at,\n\t\t\tc.updated_at,\n\t\t\tu.first_name,\n\t\t\tu.last_name,\n\t\t\tu.email,\n\t\t\tu.profile_image_url\n\t\tFROM comments c\n\t\tINNER JOIN users u ON u.id=c.user_id\n\t\t"

/-- The fixed head of the count statement. -/
def countHead : String :=
  "\n\t\tSELECT count(1) FROM comments c\n\t\tINNER JOIN users u ON u.id=c.user_id "

/-- Text of a list statement. -/
def ListStmt.render (q : ListStmt) : String :=
  listHead ++ renderFilter q.conds ++ "\n\t\tORDER BY c.created_at desc"
    ++ (" LIMIT " ++ fmtD q.limit ++ " OFFSET " ++ fmtD q.offset ++ " ")

/-! ## The comment store (`storage/postgres/comment.go`) -/

namespace commentRepo

/-- Store operation `Create`: the `INSERT ... RETURNING id, created_at`, whose
two results are written back into the record handed in. -/
def Create (db : DB) (fault : Option Err) (comment : repo.Comment) :
    DB × Except Err repo.Comment :=
  match fault with
  | some e => (db, .error e)
  | none =>
    let row : CommentRow :=
      { id := db.nextID, user_id := comment.UserID, post_id := comment.PostID,
        description := comment.Description, created_at := db.now, updated_at := none }
    ({ db with comments := db.comments ++ [row], nextID := db.nextID + 1 },
      .ok { comment with ID := db.nextID, CreatedAt := db.now })

/-- Line 54: `offset := (params.Page - 1) * params.Limit`, in `int32`. -/
def offset (params : repo.GetAllCommentsParams) : Int :=
  wrap32 (wrap32 (params.Page - 1) * params.Limit)

/-- Line 56: `limit := fmt.Sprintf(" LIMIT %d OFFSET %d ", params.Limit, offset)`. -/
def limitText (params : repo.GetAllCommentsParams) : String :=
  " LIMIT " ++ fmtD params.Limit ++ " OFFSET " ++ fmtD (offset params) ++ " "

/-- Lines 58-65: the filter text. -/
def filterText (params : repo.GetAllCommentsParams) : String :=
  let filter := " WHERE true "
  let filter :=
    if params.UserID ≠ 0 then filter ++ (" AND c.user_id=" ++ fmtD params.UserID ++ " ") else filter
  let filter :=
    if params.PostID ≠ 0 then filter ++ (" AND c.post_id=" ++ fmtD params.PostID ++ " ") else filter
  filter

/-- Lines 67-82: the text of the list query. -/
def queryText (params : repo.GetAllCommentsParams) : String :=
  listHead ++ filterText params ++ "\n\t\tORDER BY c.created_at desc" ++ limitText params

/-- Lines 113-115: the text of the count query. -/
def queryCountText (params : repo.GetAllCommentsParams) : String :=
  countHead ++ filterText params

/-- The conjuncts present in `filterText`. -/
def conds (params : repo.GetAllCommentsParams) : List Cond :=
  (if params.UserID ≠ 0 then [Cond.userID params.UserID] else [])
    ++ (if params.PostID ≠ 0 then [Cond.postID params.PostID] else [])

/-- The list query as the backend reads it. -/
def listStmt (params : repo.GetAllCommentsParams) : ListStmt :=
  { conds := conds params, limit := params.Limit, offset := offset params }

/-- Lines 92-105: the record scanned from one result row. -/
def scanRow (r : CommentRow × UserRow) : repo.Comment :=
  { ID := r.1.id, UserID := r.1.user_id, PostID := r.1.post_id,
    Description := r.1.description, CreatedAt := r.1.created_at,
    UpdatedAt := r.1.updated_at,
    User := { FirstName := r.2.first_name, LastName := r.2.last_name,
              Email := r.2.email, ProfileImageUrl := r.2.profile_image_url } }

/-- Store operation `GetAll`: the list query, then the count query.  Each of
the two can fail on its own. -/
def GetAll (db : DB) (faultList faultCount : Option Err) (params : repo.GetAllCommentsParams) :
    Except Err repo.GetAllCommentsResult :=
  match faultList with
  | some e => .error e
  | none =>
    match runList db (listStmt params) with
    | .error e => .error e
    | .ok rows =>
      let comments := rows.foldl (fun acc r => sliceAppend acc (scanRow r)) (some [])
      match faultCount with
      | some e => .error e
      | none => .ok { Comments := comments, Count := runCount db (conds params) }

/-- Store operation `Update`: `UPDATE comments SET description=$1 WHERE id=$2
RETURNING created_at`.  The returned time is scanned into a local record that
is dropped, and the record handed in is returned. -/
def Update (db : DB) (fault : Option Err) (comment : repo.Comment) :
    DB × Except Err repo.Comment :=
  match fault with
  | some e => (db, .error e)
  | none =>
    let db' : DB :=
      { db with comments := db.comments.map fun r =>
          if r.id = comment.ID then { r with description := comment.Description } else r }
    match (db.comments.filter fun r => r.id = comment.ID).map fun r => r.created_at with
    | [] => (db', .error .ErrNoRows)
    | _ :: _ => (db', .ok comment)

/-- Store operation `Delete`: `DELETE FROM comments WHERE id=$1`, then the
number of affected rows; zero rows is `sql.ErrNoRows`. -/
def Delete (db : DB) (faultExec faultRows : Option Err) (id : Int) : DB × Option Err :=
  match faultExec with
  | some e => (db, some e)
  | none =>
    let db' : DB := { db with comments := db.comments.filter fun r => r.id ≠ id }
    let rowsEffected : Int := ((db.comments.filter fun r => r.id = id).length : Int)
    match faultRows with
    | some e => (db', some e)
    | none => if rowsEffected = 0 then (db', some .ErrNoRows) else (db', none)

end commentRepo

/-! ## The request handlers (`api/v1/comment.go`) -/

/-- A call a handler makes on the store. -/
inductive StoreCall where
  | Create (comment : repo.Comment)
  | GetAll (params : repo.GetAllCommentsParams)
  | Update (comment : repo.Comment)
  | Delete (id : Int)
  deriving DecidableEq, Repr

/-- A JSON body a handler writes; `Error` is `errorResponse(err)`. -/
inductive Body where
  | Comment (c : models.Comment)
  | Comments (r : models.GetAllCommentsResponse)
  | OK (r : models.ResponseOK)
  | Error (e : Err)
  deriving DecidableEq, Repr

/-- What a handler leaves behind: the HTTP status and body written with
`c.JSON`, the database afterwards, and the store calls made. -/
structure Outcome where
  status : Nat
  body : Body
  db : DB
  calls : List StoreCall
  deriving DecidableEq, Repr

/-- HTTP status 200. -/
def StatusOK : Nat := 200

/-- HTTP status 201. -/
def StatusCreated : Nat := 201

/-- HTTP status 400. -/
def StatusBadRequest : Nat := 400

/-- HTTP status 404. -/
def StatusNotFound : Nat := 404

/-- HTTP status 500. -/
def StatusInternalServerError : Nat := 500

/-- Gin `c.Query(key)`: the first value of the key in the URL query, the
empty string when the key is absent. -/
def Query (q : List (String × String)) (key : String) : String :=
  match q.find? fun kv => kv.1 = key with
  | some kv => kv.2
  | none => ""

/-- Function `parseCommentModel`. -/
def parseCommentModel (comment : repo.Comment) : models.Comment :=
  { ID := comment.ID, UserID := comment.UserID, PostID := comment.PostID,
    Description := comment.Description, CreatedAt := comment.CreatedAt,
    UpdatedAt := comment.UpdatedAt,
    User := { ID := comment.UserID, FirstName := comment.User.FirstName,
              LastName := comment.User.LastName, Email := comment.User.Email,
              ProfileImageUrl := comment.User.ProfileImageUrl } }

/-- Function `getCommentsResponse`: starts from `make([]*models.Comment, 0)` and
appends the translation of every comment of the store's result. -/
def getCommentsResponse (data : repo.GetAllCommentsResult) : models.GetAllCommentsResponse :=
  { Comments := (sliceElems data.Comments).foldl
      (fun acc comment => sliceAppend acc (parseCommentModel comment)) (some []),
    Count := data.Count }

/-- One of the four blocks of `validateGetAllCommentsParams`,
`if c.Query(key) != "" { v, err = strconv.Atoi(c.Query(key)); ... }`: the
initial value when the parameter is absent or empty, its `Atoi` otherwise. -/
def readParam (q : List (String × String)) (key : String) (dflt : Int) : Except Err Int :=
  if Query q key ≠ "" then Atoi (Query q key) else .ok dflt

/-- Function `validateGetAllCommentsParams` on the URL query: the four blocks
in turn, each returning its error at once, then the conversions to `int32`
and `int64`. -/
def validateGetAllCommentsParams (q : List (String × String)) :
    Except Err models.GetAllCommentsParams :=
  match readParam q "limit" 10 with
  | .error err => .error err
  | .ok limit =>
    match readParam q "page" 1 with
    | .error err => .error err
    | .ok page =>
      match readParam q "user_id" 0 with
      | .error err => .error err
      | .ok userID =>
        match readParam q "post_id" 0 with
        | .error err => .error err
        | .ok postID =>
          .ok { Limit := wrap32 limit, Page := wrap32 page,
                UserID := wrap64 userID, PostID := wrap64 postID }

/-- The zero value of `repo.CommentUser`. -/
def zeroUser : repo.CommentUser :=
  { FirstName := "", LastName := "", Email := "", ProfileImageUrl := "" }

/-- Handler `CreateComment`.  `bind` is the result of `ShouldBindJSON`, `auth`
that of `GetAuthPayload`. -/
def CreateComment (bind : Except Err models.CreateCommentRequest) (auth : Except Err Payload)
    (fault : Option Err) (db : DB) : Outcome :=
  match bind with
  | .error err => { status := StatusBadRequest, body := .Error err, db := db, calls := [] }
  | .ok req =>
    match auth with
    | .error err => { status := StatusBadRequest, body := .Error err, db := db, calls := [] }
    | .ok payload =>
      let arg : repo.Comment :=
        { ID := 0, UserID := payload.UserID, PostID := req.PostID,
          Description := req.Description, CreatedAt := 0, UpdatedAt := none, User := zeroUser }
      match commentRepo.Create db fault arg with
      | (db', .error err) =>
        { status := StatusBadRequest, body := .Error err, db := db', calls := [.Create arg] }
      | (db', .ok resp) =>
        { status := StatusCreated, body := .Comment (parseCommentModel resp), db := db',
          calls := [.Create arg] }

/-- Handler `GetAllComments` on the URL query. -/
def GetAllComments (q : List (String × String)) (faultList faultCount : Option Err) (db : DB) :
    Outcome :=
  match validateGetAllCommentsParams q with
  | .error err => { status := StatusBadRequest, body := .Error err, db := db, calls := [] }
  | .ok req =>
    let arg : repo.GetAllCommentsParams :=
      { Page := req.Page, Limit := req.Limit, UserID := req.UserID, PostID := req.PostID }
    match commentRepo.GetAll db faultList faultCount arg with
    | .error err =>
      { status := StatusInternalServerError, body := .Error err, db := db, calls := [.GetAll arg] }
    | .ok result =>
      { status := StatusOK, body := .Comments (getCommentsResponse result), db := db,
        calls := [.GetAll arg] }

/-- Handler `UpdateComment`.  `bind` is the body bound into a `repo.Comment`,
`idParam` the path parameter `id`. -/
def UpdateComment (bind : Except Err repo.Comment) (idParam : String) (fault : Option Err)
    (db : DB) : Outcome :=
  match bind with
  | .error err => { status := StatusBadRequest, body := .Error err, db := db, calls := [] }
  | .ok req =>
    match Atoi idParam with
    | .error err => { status := StatusBadRequest, body := .Error err, db := db, calls := [] }
    | .ok id =>
      let req : repo.Comment := { req with ID := wrap64 id }
      match commentRepo.Update db fault req with
      | (db', .error err) =>
        { status := StatusInternalServerError, body := .Error err, db := db',
          calls := [.Update req] }
      | (db', .ok updated) =>
        { status := StatusCreated, body := .Comment (parseCommentModel updated), db := db',
          calls := [.Update req] }

/-- Handler `DeleteComment`.  `idParam` is the path parameter `id`. -/
def DeleteComment (idParam : String) (faultExec faultRows : Option Err) (db : DB) : Outcome :=
  match Atoi idParam with
  | .error err => { status := StatusBadRequest, body := .Error err, db := db, calls := [] }
  | .ok id =>
    match commentRepo.Delete db faultExec faultRows (wrap64 id) with
    | (db', some err) =>
      if err = .ErrNoRows then
        { status := StatusNotFound, body := .Error err, db := db', calls := [.Delete (wrap64 id)] }
      else
        { status := StatusInternalServerError, body := .Error err, db := db',
          calls := [.Delete (wrap64 id)] }
    | (db', none) =>
      { status := StatusOK, body := .OK { Message := "Successfully deleted" }, db := db',
        calls := [.Delete (wrap64 id)] }

/-! ## Sample data -/

/-- A user row. -/
def alice : UserRow :=
  { id := 42, first_name := "Alice", last_name := "A", email := "a@x.io", profile_image_url := "" }

/-- A comment row of user 42 on post 5. -/
def row1 : CommentRow :=
  { id := 1, user_id := 42, post_id := 5, description := "old", created_at := 100,
    updated_at := none }

/-- A second, newer comment row of user 42 on post 5. -/
def row2 : CommentRow :=
  { id := 2, user_id := 42, post_id := 5, description := "second", created_at := 200,
    updated_at := none }

/-- A database with one user and no comment. -/
def db0 : DB := { comments := [], users := [alice], nextID := 1, now := 1000 }

/-- A database with one user and two comments. -/
def db2 : DB := { comments := [row1, row2], users := [alice], nextID := 3, now := 1000 }

/-- A bound update body that carries its own user, post and time. -/
def body1 : repo.Comment :=
  { ID := 0, UserID := 7, PostID := 9, Description := "new", CreatedAt := 0,
    UpdatedAt := none, User := zeroUser }

/-- The columns of a comment row other than `description`. -/
def keptColumns (r : CommentRow) : Int × Int × Int × Time × Option Time :=
  (r.id, r.user_id, r.post_id, r.created_at, r.updated_at)

instance : IsTotal (CommentRow × UserRow) newerEq :=
  ⟨fun a b => le_total b.1.created_at a.1.created_at⟩

instance : IsTrans (CommentRow × UserRow) newerEq :=
  ⟨fun _ _ _ hab hbc => le_trans hbc hab⟩

/-- Parameters asking for page 65537 of pages of 65536 comments. -/
def bigPage : repo.GetAllCommentsParams :=
  { Page := 65537, Limit := 65536, UserID := 0, PostID := 0 }

/-- Parameters asking for the second page of pages of ten comments. -/
def page2 : repo.GetAllCommentsParams := { Page := 2, Limit := 10, UserID := 0, PostID := 0 }

/-- Twelve comments of user 42 on post 5, ids 1 to 12, created at times 1 to 12. -/
def db12 : DB :=
  { comments := (List.range 12).map fun i =>
      { id := (i : Int) + 1, user_id := 42, post_id := 5, description := "c",
        created_at := (i : Int) + 1, updated_at := none },
    users := [alice], nextID := 13, now := 1000 }

/-- Whether a joined row passes the two filters, zero meaning "no filter". -/
def passes (userID postID : Int) (r : CommentRow × UserRow) : Bool :=
  (decide (userID = 0) || decide (r.1.user_id = userID))
    && (decide (postID = 0) || decide (r.1.post_id = postID))

/-- A comment row whose user id is the literal 0. -/
def rowZero : CommentRow :=
  { id := 3, user_id := 0, post_id := 0, description := "zero", created_at := 300,
    updated_at := none }

/-- A user row with the literal id 0. -/
def nobody : UserRow :=
  { id := 0, first_name := "", last_name := "", email := "", profile_image_url := "" }

/-- A database that holds a comment and a user with the literal key 0. -/
def dbZero : DB :=
  { comments := [row1, row2, rowZero], users := [alice, nobody], nextID := 4, now := 1000 }

/-- A decimal integer in writing: an optional sign, then one or more decimal
digits. -/
def decimalInteger (s : String) : Bool :=
  !(splitSign s.toList).2.isEmpty && (splitSign s.toList).2.all isDigit

/-- Value of a run of decimal digits, most significant first. -/
def digitsValue (ds : List Char) : Nat :=
  ds.foldl (fun n ch => n * 10 + (ch.toNat - '0'.toNat)) 0

/-- The number a sign flag and a run of digits denote. -/
def signedValue (sd : Bool × List Char) : Int :=
  if sd.1 then -(digitsValue sd.2 : Int) else (digitsValue sd.2 : Int)

/-- The number a decimal integer in writing denotes. -/
def decimalValue (s : String) : Int := signedValue (splitSign s.toList)

/-- Twenty nines, which leave 64 bits, and then a letter. -/
def overflowThenLetter : String := "99999999999999999999x"

/-- The digits of 2^63, which fit 64 bits unsigned, and then a letter. -/
def digitsThenLetter : String := "9223372036854775808x"

/-- The four query parameters of the listing. -/
def queryKeys : List String := ["limit", "page", "user_id", "post_id"]

/-- The store parameters `GetAllComments` builds from the validated query. -/
def storeParams (req : models.GetAllCommentsParams) : repo.GetAllCommentsParams :=
  { Page := req.Page, Limit := req.Limit, UserID := req.UserID, PostID := req.PostID }

/-- A query whose `limit` is a decimal integer one above the largest `int`. -/
def hugeLimit : List (String × String) := [("limit", "9223372036854775808")]

/-- A query that asks for page 0. -/
def pageZero : List (String × String) := [("page", "0")]

/-- A query whose four parameters parse, with a limit of 2^32 + 1. -/
def wideLimit : List (String × String) :=
  [("limit", "4294967297"), ("page", "1"), ("user_id", "42"), ("post_id", "5")]

/-- A query for the second page of ten comments of user 42 on post 5. -/
def secondPage : List (String × String) :=
  [("limit", "10"), ("page", "2"), ("user_id", "42"), ("post_id", "5")]

/-- Whether the characters `x` and `y` occur next to each other, in this
order. -/
def hasPair (x y : Char) : List Char → Bool
  | a :: b :: t => (a == x && b == y) || hasPair x y (b :: t)
  | _ => false

/-- A character other than the capitals `L` and `F`. -/
def plainChar (c : Char) : Bool := c != 'L' && c != 'F'

/-! ## Auxiliary facts -/

theorem wrap32_of_range (n : Int) (h1 : minInt32 ≤ n) (h2 : n ≤ maxInt32) : wrap32 n = n := by
  unfold minInt32 at h1
  unfold maxInt32 at h2
  unfold wrap32
  omega

theorem wrap64_of_range (n : Int) (h1 : minInt ≤ n) (h2 : n ≤ maxInt) : wrap64 n = n := by
  unfold minInt at h1
  unfold maxInt at h2
  unfold wrap64
  omega

theorem foldl_digits_ge (ds : List Char) (n : Nat) :
    n ≤ ds.foldl (fun n ch => n * 10 + (ch.toNat - '0'.toNat)) n := by
  induction ds generalizing n with
  | nil => exact Nat.le_refl n
  | cons c cs ih =>
    rw [List.foldl_cons]
    exact Nat.le_trans (by omega) (ih _)

theorem scanDigits_ok_iff (s : String) (ds : List Char) (n m : Nat)
    (hn : n < 18446744073709551616) :
    scanDigits s ds n = .ok m
      ↔ ds.all isDigit = true
        ∧ ds.foldl (fun n ch => n * 10 + (ch.toNat - '0'.toNat)) n = m
        ∧ m < 18446744073709551616 := by
  induction ds generalizing n with
  | nil =>
    simp only [scanDigits, List.all_nil, List.foldl_nil, true_and]
    constructor
    · intro h
      injection h with h
      exact ⟨h, h ▸ hn⟩
    · rintro ⟨h, _⟩
      rw [h]
  | cons c cs ih =>
    rw [scanDigits, List.all_cons, List.foldl_cons]
    cases hc : isDigit c with
    | false =>
      simp only [Bool.not_false, if_true, Bool.false_and, Bool.false_eq_true, false_and,
        iff_false]
      intro h
      cases h
    | true =>
      simp only [Bool.not_true, Bool.false_eq_true, if_false, Bool.true_and]
      by_cases hov : 18446744073709551616 ≤ n * 10 + (c.toNat - '0'.toNat)
      · rw [if_pos hov]
        constructor
        · intro h
          cases h
        · rintro ⟨_, hv, hm⟩
          have := foldl_digits_ge cs (n * 10 + (c.toNat - '0'.toNat))
          omega
      · rw [if_neg hov]
        exact ih _ (by omega)

theorem Atoi_spec (s : String) (v : Int) :
    Atoi s = .ok v
      ↔ decimalInteger s = true ∧ v = decimalValue s ∧ minInt ≤ v ∧ v ≤ maxInt := by
  unfold Atoi decimalInteger decimalValue signedValue digitsValue minInt maxInt
  generalize (splitSign s.toList).2 = ds
  generalize (splitSign s.toList).1 = neg
  cases hE : ds.isEmpty with
  | true =>
    simp only [if_true, Bool.not_true, Bool.false_and, Bool.false_eq_true, false_and, iff_false]
    intro h
    cases h
  | false =>
    simp only [Bool.false_eq_true, if_false, Bool.not_false, Bool.true_and]
    cases hscan : scanDigits s ds 0 with
    | error e =>
      simp only []
      constructor
      · intro h
        cases h
      · rintro ⟨hall, hv, hlo, hhi⟩
        have hok := (scanDigits_ok_iff s ds 0 _ (by decide)).mpr ⟨hall, rfl, by
          cases neg <;> simp only [Bool.false_eq_true, if_false, if_true] at hv <;> omega⟩
        rw [hscan] at hok
        cases hok
    | ok un =>
      obtain ⟨hall, hval, hun⟩ := (scanDigits_ok_iff s ds 0 un (by decide)).mp hscan
      simp only []
      rw [hval]
      cases neg with
      | true =>
        simp only [if_true]
        by_cases hr : 9223372036854775808 < un
        · rw [if_pos hr]
          constructor
          · intro h
            cases h
          · rintro ⟨_, hv, hlo, _⟩
            omega
        · rw [if_neg hr]
          constructor
          · intro h
            injection h with h
            exact ⟨hall, h.symm, by omega, by omega⟩
          · rintro ⟨_, hv, _, _⟩
            rw [hv]
      | false =>
        simp only [Bool.false_eq_true, if_false]
        by_cases hr : 9223372036854775808 ≤ un
        · rw [if_pos hr]
          constructor
          · intro h
            cases h
          · rintro ⟨_, hv, _, hhi⟩
            omega
        · rw [if_neg hr]
          constructor
          · intro h
            injection h with h
            exact ⟨hall, h.symm, by omega, by omega⟩
          · rintro ⟨_, hv, _, _⟩
            rw [hv]

theorem Atoi_range (s : String) (n : Int) (h : Atoi s = .ok n) : minInt ≤ n ∧ n ≤ maxInt :=
  ((Atoi_spec s n).mp h).2.2

theorem Atoi_wrap64 (s : String) (n : Int) (h : Atoi s = .ok n) : wrap64 n = n :=
  wrap64_of_range n (Atoi_range s n h).1 (Atoi_range s n h).2

theorem foldl_sliceAppend {α β : Type} (f : α → β) (l : List α) (init : List β) :
    l.foldl (fun acc r => sliceAppend acc (f r)) (some init) = some (init ++ l.map f) := by
  induction l generalizing init with
  | nil => simp
  | cons a t ih =>
    rw [List.foldl_cons, List.map_cons]
    show List.foldl _ (some (init ++ [f a])) t = _
    rw [ih]
    simp

theorem filter_id_ne_of_absent (l : List CommentRow) (n : Int) (h : ∀ r ∈ l, r.id ≠ n) :
    (l.filter fun r => r.id ≠ n) = l := by
  rw [List.filter_eq_self]
  intro r hr
  exact decide_eq_true (h r hr)

theorem filter_id_eq_of_absent (l : List CommentRow) (n : Int) (h : ∀ r ∈ l, r.id ≠ n) :
    (l.filter fun r => r.id = n) = [] := by
  rw [List.filter_eq_nil_iff]
  intro r hr hd
  exact h r hr (of_decide_eq_true hd)

theorem filter_id_ne_eq_erase (l : List CommentRow) (R : CommentRow)
    (hu : (l.map fun r => r.id).Nodup) (hR : R ∈ l) :
    (l.filter fun r => r.id ≠ R.id) = l.erase R := by
  induction l with
  | nil => cases hR
  | cons a t ih =>
    rw [List.map_cons, List.nodup_cons] at hu
    by_cases ha : a = R
    · subst ha
      have hne : ∀ r ∈ t, r.id ≠ a.id := by
        intro r hr he
        exact hu.1 (he ▸ List.mem_map_of_mem (fun r => r.id) hr)
      rw [List.filter_cons, if_neg (by simp), filter_id_ne_of_absent t a.id hne,
        List.erase_cons_head]
    · have hRt : R ∈ t := by
        rcases List.mem_cons.mp hR with h | h
        · exact absurd h.symm ha
        · exact h
      have hid : a.id ≠ R.id := by
        intro he
        exact hu.1 (he ▸ List.mem_map_of_mem (fun r => r.id) hRt)
      rw [List.erase_cons_tail (by simpa using ha),
        List.filter_cons, if_pos (decide_eq_true hid), ih hu.2 hRt]

theorem filter_id_eq_of_present (l : List CommentRow) (R : CommentRow)
    (hu : (l.map fun r => r.id).Nodup) (hR : R ∈ l) :
    (l.filter fun r => r.id = R.id) = [R] := by
  induction l with
  | nil => cases hR
  | cons a t ih =>
    rw [List.map_cons, List.nodup_cons] at hu
    by_cases ha : a = R
    · subst ha
      have hne : ∀ r ∈ t, r.id ≠ a.id := by
        intro r hr he
        exact hu.1 (he ▸ List.mem_map_of_mem (fun r => r.id) hr)
      rw [List.filter_cons, if_pos (by simp), filter_id_eq_of_absent t a.id hne]
    · have hRt : R ∈ t := by
        rcases List.mem_cons.mp hR with h | h
        · exact absurd h.symm ha
        · exact h
      have hid : a.id ≠ R.id := by
        intro he
        exact hu.1 (he ▸ List.mem_map_of_mem (fun r => r.id) hRt)
      rw [List.filter_cons, if_neg (by simpa using hid), ih hu.2 hRt]

theorem Delete_absent (db : DB) (n : Int) (h : ∀ r ∈ db.comments, r.id ≠ n) :
    commentRepo.Delete db none none n = (db, some Err.ErrNoRows) := by
  unfold commentRepo.Delete
  simp only []
  rw [filter_id_ne_of_absent _ n h, filter_id_eq_of_absent _ n h]
  rfl

theorem Delete_present (db : DB) (R : CommentRow)
    (hu : (db.comments.map fun r => r.id).Nodup) (hR : R ∈ db.comments) :
    commentRepo.Delete db none none R.id = ({ db with comments := db.comments.erase R }, none) := by
  unfold commentRepo.Delete
  simp only []
  rw [filter_id_ne_eq_erase _ R hu hR, filter_id_eq_of_present _ R hu hR]
  rfl

/-! ## Creating a comment -/

/-- C1: for every bound create body and every authenticated identity,
`CreateComment` makes exactly one store call, `Create`, whose record carries the
caller's user id together with the body's post id and description; when the
store succeeds the answer is 201 with a comment whose `user_id` and embedded
`user.id` are the caller's id and whose `post_id` and `description` are the
body's, and the inserted row carries the same user id. -/
theorem C1_create_uses_authenticated_user (req : models.CreateCommentRequest) (payload : Payload)
    (fault : Option Err) (db : DB) :
    (∃ arg, (CreateComment (.ok req) (.ok payload) fault db).calls = [StoreCall.Create arg]
        ∧ arg.UserID = payload.UserID ∧ arg.PostID = req.PostID
        ∧ arg.Description = req.Description)
    ∧ (∃ c, (CreateComment (.ok req) (.ok payload) none db).status = StatusCreated
        ∧ (CreateComment (.ok req) (.ok payload) none db).body = Body.Comment c
        ∧ c.UserID = payload.UserID ∧ c.User.ID = payload.UserID
        ∧ c.PostID = req.PostID ∧ c.Description = req.Description
        ∧ c.ID = db.nextID ∧ c.CreatedAt = db.now)
    ∧ (∃ row, (CreateComment (.ok req) (.ok payload) none db).db.comments = db.comments ++ [row]
        ∧ row.user_id = payload.UserID ∧ row.post_id = req.PostID
        ∧ row.description = req.Description) := by
  refine ⟨?_, ?_, ?_⟩
  · cases fault <;> exact ⟨_, rfl, rfl, rfl, rfl⟩
  · exact ⟨_, rfl, rfl, rfl, rfl, rfl, rfl, rfl, rfl⟩
  · exact ⟨_, rfl, rfl, rfl, rfl⟩

/-! ## Deleting a comment -/

/-- C2: with unique comment ids and a numeric path id and a working backend:
when no row has the id, `Delete` reports `sql.ErrNoRows`, the database is
unchanged and `DeleteComment` answers 404; when a row has the id, exactly that
row is removed, `Delete` reports no error and `DeleteComment` answers 200; any
store failure other than `sql.ErrNoRows` answers 500. -/
theorem C2_delete_not_found_or_one_row (db : DB) (s : String) (n : Int) (hs : Atoi s = .ok n)
    (hu : (db.comments.map fun r => r.id).Nodup) :
    ((∀ r ∈ db.comments, r.id ≠ n) →
        commentRepo.Delete db none none n = (db, some Err.ErrNoRows)
        ∧ (DeleteComment s none none db).status = StatusNotFound
        ∧ (DeleteComment s none none db).db = db)
    ∧ (∀ R ∈ db.comments, R.id = n →
        (commentRepo.Delete db none none n).2 = none
        ∧ (commentRepo.Delete db none none n).1 = { db with comments := db.comments.erase R }
        ∧ (DeleteComment s none none db).status = StatusOK
        ∧ (DeleteComment s none none db).db = { db with comments := db.comments.erase R }
        ∧ (DeleteComment s none none db).db.comments.length + 1 = db.comments.length
        ∧ R ∉ (DeleteComment s none none db).db.comments
        ∧ ∀ r ∈ db.comments, r ≠ R → r ∈ (DeleteComment s none none db).db.comments)
    ∧ (∀ e, e ≠ Err.ErrNoRows →
        (DeleteComment s (some e) none db).status = StatusInternalServerError
        ∧ (DeleteComment s none (some e) db).status = StatusInternalServerError) := by
  have hw := Atoi_wrap64 s n hs
  refine ⟨?_, ?_, ?_⟩
  · intro hn
    have hD := Delete_absent db n hn
    refine ⟨hD, ?_, ?_⟩ <;> simp [DeleteComment, hs, hw, hD, StatusNotFound]
  · intro R hR hid
    subst hid
    have hD := Delete_present db R hu hR
    have hnd : db.comments.Nodup := List.Nodup.of_map _ hu
    refine ⟨by rw [hD], by rw [hD], ?_, ?_, ?_, ?_, ?_⟩
    · simp [DeleteComment, hs, hw, hD]
    · simp [DeleteComment, hs, hw, hD]
    · simp only [DeleteComment, hs, hw, hD]
      rw [List.length_erase_of_mem hR]
      have : 0 < db.comments.length := List.length_pos_of_mem hR
      omega
    · simp only [DeleteComment, hs, hw, hD]
      exact hnd.not_mem_erase
    · intro r hr hne
      simp only [DeleteComment, hs, hw, hD]
      exact (List.mem_erase_of_ne hne).mpr hr
  · intro e he
    constructor
    · simp [DeleteComment, hs, commentRepo.Delete, he]
    · simp [DeleteComment, hs, commentRepo.Delete, he]

/-- Witness of C2: the two-comment database and the path id `1`. -/
theorem C2_delete_witness :
    Atoi "1" = .ok 1 ∧ (db2.comments.map fun r => r.id).Nodup
    ∧ ((∀ r ∈ db2.comments, r.id ≠ 1) →
        commentRepo.Delete db2 none none 1 = (db2, some Err.ErrNoRows)
        ∧ (DeleteComment "1" none none db2).status = StatusNotFound
        ∧ (DeleteComment "1" none none db2).db = db2)
    ∧ (∀ R ∈ db2.comments, R.id = 1 →
        (commentRepo.Delete db2 none none 1).2 = none
        ∧ (commentRepo.Delete db2 none none 1).1 = { db2 with comments := db2.comments.erase R }
        ∧ (DeleteComment "1" none none db2).status = StatusOK
        ∧ (DeleteComment "1" none none db2).db = { db2 with comments := db2.comments.erase R }
        ∧ (DeleteComment "1" none none db2).db.comments.length + 1 = db2.comments.length
        ∧ R ∉ (DeleteComment "1" none none db2).db.comments
        ∧ ∀ r ∈ db2.comments, r ≠ R → r ∈ (DeleteComment "1" none none db2).db.comments)
    ∧ (∀ e, e ≠ Err.ErrNoRows →
        (DeleteComment "1" (some e) none db2).status = StatusInternalServerError
        ∧ (DeleteComment "1" none (some e) db2).status = StatusInternalServerError) :=
  ⟨by decide, by decide, C2_delete_not_found_or_one_row db2 "1" 1 (by decide) (by decide)⟩

/-! ## Updating a comment -/

theorem Update_present (db : DB) (comment : repo.Comment) (R : CommentRow) (hR : R ∈ db.comments)
    (hid : R.id = comment.ID) :
    commentRepo.Update db none comment
      = ({ db with comments := db.comments.map fun r =>
            if r.id = comment.ID then { r with description := comment.Description } else r },
          .ok comment) := by
  unfold commentRepo.Update
  simp only []
  have hmem : R.created_at ∈ (db.comments.filter fun r => r.id = comment.ID).map
      fun r => r.created_at :=
    List.mem_map_of_mem _ (List.mem_filter.mpr ⟨hR, decide_eq_true hid⟩)
  cases hl : (db.comments.filter fun r => r.id = comment.ID).map fun r => r.created_at with
  | nil => rw [hl] at hmem; cases hmem
  | cons t ts => rfl

theorem Update_absent (db : DB) (comment : repo.Comment)
    (h : ∀ r ∈ db.comments, r.id ≠ comment.ID) :
    (commentRepo.Update db none comment).2 = .error Err.ErrNoRows := by
  unfold commentRepo.Update
  simp only []
  rw [filter_id_eq_of_absent _ _ h]
  rfl

/-- C3, as stated, fails: row 1 belongs to user 42 on post 5 and was created at
time 100; an update addressed to id 1 whose bound body carries user 7, post 9
and time 0 succeeds with 201, and the comment in the response has user 7, post
9 and time 0. -/
theorem C3_response_echoes_request_body :
    row1 ∈ db2.comments ∧ row1.id = 1
    ∧ (UpdateComment (.ok body1) "1" none db2).status = StatusCreated
    ∧ ∃ c, (UpdateComment (.ok body1) "1" none db2).body = Body.Comment c
        ∧ c.UserID ≠ row1.user_id ∧ c.PostID ≠ row1.post_id ∧ c.CreatedAt ≠ row1.created_at := by
  refine ⟨by decide, by decide, by decide, parseCommentModel { body1 with ID := 1 }, ?_⟩
  decide

/-- C3, amended: for every stored row `R` and every update request addressed to
`R`'s id, on a working backend `UpdateComment` answers 201; every stored row
keeps its id, user id, post id, creation time and update time, the rows with
that id get the body's description and no other row changes; the comment in the
response has the path id and the body's description, and its user id and post
id are the ones bound from the request body. -/
theorem C3_update_changes_only_stored_description (db : DB) (req : repo.Comment) (s : String)
    (n : Int) (hs : Atoi s = .ok n) (R : CommentRow) (hR : R ∈ db.comments) (hid : R.id = n) :
    (UpdateComment (.ok req) s none db).status = StatusCreated
    ∧ (UpdateComment (.ok req) s none db).db
        = { db with comments := db.comments.map fun r =>
              if r.id = n then { r with description := req.Description } else r }
    ∧ { R with description := req.Description } ∈ (UpdateComment (.ok req) s none db).db.comments
    ∧ (UpdateComment (.ok req) s none db).db.comments.map keptColumns
        = db.comments.map keptColumns
    ∧ (∃ c, (UpdateComment (.ok req) s none db).body = Body.Comment c
        ∧ c.ID = n ∧ c.Description = req.Description
        ∧ c.UserID = req.UserID ∧ c.PostID = req.PostID) := by
  have hw := Atoi_wrap64 s n hs
  have hU := Update_present db { req with ID := n } R hR hid
  have hout : UpdateComment (.ok req) s none db
      = { status := StatusCreated, body := .Comment (parseCommentModel { req with ID := n }),
          db := { db with comments := db.comments.map fun r =>
              if r.id = n then { r with description := req.Description } else r },
          calls := [.Update { req with ID := n }] } := by
    simp only [UpdateComment, hs, hw, hU]
  rw [hout]
  refine ⟨rfl, rfl, ?_, ?_, ⟨_, rfl, rfl, rfl, rfl, rfl⟩⟩
  · show _ ∈ List.map _ db.comments
    refine List.mem_map.mpr ⟨R, hR, ?_⟩
    rw [if_pos hid]
  · show List.map _ (List.map _ db.comments) = _
    rw [List.map_map]
    apply List.map_congr_left
    intro r _
    show keptColumns (if r.id = n then { r with description := req.Description } else r) = _
    split <;> rfl

/-- Witness of the amended C3: the update of comment 1 in the two-comment
database. -/
theorem C3_update_witness :
    Atoi "1" = .ok 1 ∧ row1 ∈ db2.comments ∧ row1.id = 1
    ∧ (UpdateComment (.ok body1) "1" none db2).status = StatusCreated
    ∧ (UpdateComment (.ok body1) "1" none db2).db
        = { db2 with comments := db2.comments.map fun r =>
              if r.id = 1 then { r with description := body1.Description } else r }
    ∧ { row1 with description := body1.Description }
        ∈ (UpdateComment (.ok body1) "1" none db2).db.comments
    ∧ (UpdateComment (.ok body1) "1" none db2).db.comments.map keptColumns
        = db2.comments.map keptColumns
    ∧ (∃ c, (UpdateComment (.ok body1) "1" none db2).body = Body.Comment c
        ∧ c.ID = 1 ∧ c.Description = body1.Description
        ∧ c.UserID = body1.UserID ∧ c.PostID = body1.PostID) :=
  ⟨by decide, by decide, by decide,
    C3_update_changes_only_stored_description db2 body1 "1" 1 (by decide) row1 (by decide)
      (by decide)⟩

/-! ## Listing comments: the page window -/

theorem offset_exact (params : repo.GetAllCommentsParams)
    (h1 : minInt32 ≤ params.Page - 1) (h2 : params.Page - 1 ≤ maxInt32)
    (h3 : minInt32 ≤ (params.Page - 1) * params.Limit)
    (h4 : (params.Page - 1) * params.Limit ≤ maxInt32) :
    commentRepo.offset params = (params.Page - 1) * params.Limit := by
  unfold commentRepo.offset
  rw [wrap32_of_range _ h1 h2, wrap32_of_range _ h3 h4]

theorem GetAll_ok (db : DB) (params : repo.GetAllCommentsParams) (hl : 0 ≤ params.Limit)
    (ho : 0 ≤ commentRepo.offset params) :
    commentRepo.GetAll db none none params
      = .ok { Comments := some ((((newestFirst (selected db (commentRepo.conds params))).drop
                (commentRepo.offset params).toNat).take params.Limit.toNat).map
                commentRepo.scanRow),
              Count := runCount db (commentRepo.conds params) } := by
  unfold commentRepo.GetAll runList
  simp only [commentRepo.listStmt]
  rw [if_neg (not_lt.mpr hl), if_neg (not_lt.mpr ho)]
  simp only [foldl_sliceAppend, List.nil_append]

theorem renderFilter_conds (params : repo.GetAllCommentsParams) :
    renderFilter (commentRepo.conds params) = commentRepo.filterText params := by
  unfold renderFilter commentRepo.conds commentRepo.filterText
  by_cases hu : params.UserID = 0 <;> by_cases hp : params.PostID = 0 <;>
    simp [hu, hp, Cond.render]

theorem render_listStmt (params : repo.GetAllCommentsParams) :
    (commentRepo.listStmt params).render = commentRepo.queryText params := by
  unfold ListStmt.render commentRepo.queryText commentRepo.limitText
  simp only [commentRepo.listStmt]
  rw [renderFilter_conds]

/-- C4, as stated, fails: for page 65537 and limit 65536 (both valid `int32`
values, reached through the query `page=65537&limit=65536`) the product
(p−1)×l is 4294967296, but the query asks for `OFFSET 0`, and the store returns
the first comments instead of the window that starts at 4294967296. -/
theorem C4_offset_wraps_around :
    (GetAllComments [("page", "65537"), ("limit", "65536")] none none db2).calls
        = [StoreCall.GetAll bigPage]
    ∧ (bigPage.Page - 1) * bigPage.Limit = 4294967296
    ∧ commentRepo.offset bigPage = 0
    ∧ commentRepo.limitText bigPage = " LIMIT 65536 OFFSET 0 "
    ∧ commentRepo.GetAll db2 none none bigPage
        = .ok { Comments := some [commentRepo.scanRow (row2, alice),
                                  commentRepo.scanRow (row1, alice)], Count := 2 }
    ∧ ((newestFirst (selected db2 (commentRepo.conds bigPage))).drop 4294967296).take 65536
        = [] := by
  refine ⟨by decide, by decide, by decide, by decide, by decide, by decide⟩

theorem wrap32_congr (n : Int) : ∃ k : Int, wrap32 n = n + 4294967296 * k := by
  unfold wrap32
  exact ⟨-((n + 2147483648) / 4294967296), by omega⟩

theorem wrap32_bounds (n : Int) : minInt32 ≤ wrap32 n ∧ wrap32 n ≤ maxInt32 := by
  unfold wrap32 minInt32 maxInt32
  omega

theorem offset_congr (params : repo.GetAllCommentsParams) :
    (4294967296 : Int) ∣ commentRepo.offset params - (params.Page - 1) * params.Limit := by
  unfold commentRepo.offset
  obtain ⟨k1, h1⟩ := wrap32_congr (params.Page - 1)
  obtain ⟨k2, h2⟩ := wrap32_congr (wrap32 (params.Page - 1) * params.Limit)
  rw [h2, h1]
  exact ⟨k1 * params.Limit + k2, by ring⟩

theorem GetAll_rejected (db : DB) (params : repo.GetAllCommentsParams)
    (h : params.Limit < 0 ∨ commentRepo.offset params < 0) :
    ∃ e, commentRepo.GetAll db none none params = .error e := by
  unfold commentRepo.GetAll runList
  simp only [commentRepo.listStmt]
  by_cases hl : params.Limit < 0
  · rw [if_pos hl]
    exact ⟨_, rfl⟩
  · rw [if_neg hl]
    have ho : commentRepo.offset params < 0 := h.resolve_left hl
    rw [if_pos ho]
    exact ⟨_, rfl⟩

/-- C4, amended: for every parameter record, with page p and limit l, the list
query is the fixed `SELECT`, the filter, `ORDER BY c.created_at desc` and
`LIMIT l OFFSET o`, where `o` is (p−1)×l computed in `int32`, wrapping around:
`o` is the number between −2^31 and 2^31−1 that differs from (p−1)×l by a
multiple of 2^32.  The query asks for rows in creation-time-descending order,
and on a working backend the store returns the window [o, o + l) of the
filtered, newest-first sequence when l and `o` are not negative, and an error
otherwise.  When 1 ≤ p, 0 ≤ l and (p−1)×l fits `int32`, `o` is exactly
(p−1)×l and the returned comments are the window [(p−1)×l, (p−1)×l + l). -/
theorem C4_list_query_window (db : DB) (params : repo.GetAllCommentsParams) :
    commentRepo.queryText params
        = listHead ++ commentRepo.filterText params ++ "\n\t\tORDER BY c.created_at desc"
          ++ (" LIMIT " ++ fmtD params.Limit ++ " OFFSET "
              ++ fmtD (commentRepo.offset params) ++ " ")
    ∧ commentRepo.queryText params = (commentRepo.listStmt params).render
    ∧ (commentRepo.listStmt params).limit = params.Limit
    ∧ (commentRepo.listStmt params).offset = commentRepo.offset params
    ∧ (minInt32 ≤ commentRepo.offset params ∧ commentRepo.offset params ≤ maxInt32)
    ∧ (4294967296 : Int) ∣ commentRepo.offset params - (params.Page - 1) * params.Limit
    ∧ (newestFirst (selected db (commentRepo.conds params))).Sorted newerEq
    ∧ (newestFirst (selected db (commentRepo.conds params))).Perm
        (selected db (commentRepo.conds params))
    ∧ (0 ≤ params.Limit → 0 ≤ commentRepo.offset params →
        commentRepo.GetAll db none none params
          = .ok { Comments := some ((((newestFirst (selected db (commentRepo.conds params))).drop
                    (commentRepo.offset params).toNat).take params.Limit.toNat).map
                    commentRepo.scanRow),
                  Count := runCount db (commentRepo.conds params) })
    ∧ (params.Limit < 0 ∨ commentRepo.offset params < 0 →
        ∃ e, commentRepo.GetAll db none none params = .error e)
    ∧ (1 ≤ params.Page → params.Page ≤ maxInt32 → 0 ≤ params.Limit →
        (params.Page - 1) * params.Limit ≤ maxInt32 →
        commentRepo.offset params = (params.Page - 1) * params.Limit
        ∧ commentRepo.GetAll db none none params
          = .ok { Comments := some ((((newestFirst (selected db (commentRepo.conds params))).drop
                    ((params.Page - 1) * params.Limit).toNat).take params.Limit.toNat).map
                    commentRepo.scanRow),
                  Count := runCount db (commentRepo.conds params) }) := by
  refine ⟨rfl, (render_listStmt params).symm, rfl, rfl, wrap32_bounds _, offset_congr params,
    List.sorted_insertionSort _ _, List.perm_insertionSort _ _, GetAll_ok db params,
    GetAll_rejected db params, ?_⟩
  intro hp hp2 hl hprod
  have hnn : 0 ≤ (params.Page - 1) * params.Limit := Int.mul_nonneg (by omega) hl
  have ho : commentRepo.offset params = (params.Page - 1) * params.Limit := by
    apply offset_exact
    · unfold minInt32; omega
    · omega
    · unfold minInt32; omega
    · exact hprod
  refine ⟨ho, ?_⟩
  rw [GetAll_ok db params hl (ho ▸ hnn), ho]

/-- Witness of the amended C4: page 2 with limit 10 over twelve comments gives
`OFFSET 10` and the window [10,20), here the two oldest comments. -/
theorem C4_window_witness :
    1 ≤ page2.Page ∧ page2.Page ≤ maxInt32 ∧ 0 ≤ page2.Limit
    ∧ (page2.Page - 1) * page2.Limit ≤ maxInt32
    ∧ commentRepo.limitText page2 = " LIMIT 10 OFFSET 10 "
    ∧ commentRepo.GetAll db12 none none page2
        = .ok { Comments := some ((db12.comments.take 2).reverse.map
                  fun r => commentRepo.scanRow (r, alice)), Count := 12 }
    ∧ commentRepo.offset page2 = (page2.Page - 1) * page2.Limit
    ∧ commentRepo.GetAll db12 none none page2
        = .ok { Comments := some ((((newestFirst (selected db12 (commentRepo.conds page2))).drop
                  ((page2.Page - 1) * page2.Limit).toNat).take page2.Limit.toNat).map
                  commentRepo.scanRow),
                Count := runCount db12 (commentRepo.conds page2) } :=
  ⟨by decide, by decide, by decide, by decide, by decide, by decide,
    (C4_list_query_window db12 page2).2.2.2.2.2.2.2.2.2.2 (by decide) (by decide) (by decide)
      (by decide)⟩

/-! ## Listing comments: the filter and the count -/

theorem hasPair_append_right (x y : Char) (l t : List Char) (h : hasPair x y l = true) :
    hasPair x y (l ++ t) = true := by
  induction l with
  | nil => cases h
  | cons a l ih =>
    cases l with
    | nil => cases h
    | cons b l =>
      simp only [hasPair, Bool.or_eq_true] at h
      simp only [List.cons_append, hasPair, Bool.or_eq_true]
      rcases h with h | h
      · exact Or.inl h
      · exact Or.inr (ih h)

theorem hasPair_cons (x y a : Char) (l : List Char) (h : hasPair x y l = true) :
    hasPair x y (a :: l) = true := by
  cases l with
  | nil => cases h
  | cons b l =>
    simp only [hasPair, Bool.or_eq_true]
    exact Or.inr h

theorem hasPair_append_left (x y : Char) (s l : List Char) (h : hasPair x y l = true) :
    hasPair x y (s ++ l) = true := by
  induction s with
  | nil => exact h
  | cons a s ih => exact hasPair_cons x y a _ ih

theorem hasPair_mono (x y : Char) (l₁ l₂ : List Char) (hi : l₁ <:+: l₂)
    (h : hasPair x y l₁ = true) : hasPair x y l₂ = true := by
  obtain ⟨s, t, rfl⟩ := hi
  exact hasPair_append_right x y _ t (hasPair_append_left x y s l₁ h)

theorem hasPair_absent (x y : Char) (b : List Char) (hb : x ∉ b) : hasPair x y b = false := by
  induction b with
  | nil => rfl
  | cons a b ih =>
    cases b with
    | nil => rfl
    | cons c b =>
      have hax : a ≠ x := fun e => hb (e ▸ List.mem_cons_self _ _)
      have hrest : x ∉ c :: b := fun hm => hb (List.mem_cons_of_mem _ hm)
      simp only [hasPair, Bool.or_eq_false_iff, Bool.and_eq_false_imp, beq_iff_eq]
      exact ⟨fun e => absurd e hax, ih hrest⟩

theorem hasPair_append_absent (x y : Char) (a b : List Char) (hb : x ∉ b)
    (h : hasPair x y (a ++ b) = true) : hasPair x y a = true ∨ a.getLast? = some x := by
  induction a with
  | nil =>
    rw [List.nil_append, hasPair_absent x y b hb] at h
    cases h
  | cons c a ih =>
    cases a with
    | nil =>
      cases b with
      | nil => cases h
      | cons d t =>
        simp only [List.cons_append, List.nil_append, hasPair, Bool.or_eq_true,
          Bool.and_eq_true, beq_iff_eq] at h
        rcases h with h | h
        · exact Or.inr (by rw [h.1]; rfl)
        · rw [hasPair_absent x y (d :: t) hb] at h
          cases h
    | cons c' a =>
      simp only [List.cons_append, hasPair, Bool.or_eq_true] at h
      rcases h with h | h
      · left
        simp only [hasPair, Bool.or_eq_true]
        exact Or.inl h
      · rcases ih h with h' | h'
        · left
          simp only [hasPair, Bool.or_eq_true]
          exact Or.inr h'
        · right
          rw [List.getLast?_cons_cons]
          exact h'

theorem toDigitsCore_plain (fuel n : Nat) (ds : List Char) (hds : ds.all plainChar = true) :
    (Nat.toDigitsCore 10 fuel n ds).all plainChar = true := by
  induction fuel generalizing n ds with
  | zero => exact hds
  | succ fuel ih =>
    have hd : plainChar (Nat.digitChar (n % 10)) = true := by
      have hlt : n % 10 < 10 := Nat.mod_lt _ (by decide)
      generalize n % 10 = m at hlt
      interval_cases m <;> decide
    have hcons : (Nat.digitChar (n % 10) :: ds).all plainChar = true := by
      rw [List.all_cons, hd, hds]
      rfl
    unfold Nat.toDigitsCore
    simp only
    split
    · exact hcons
    · exact ih _ _ hcons

theorem fmtD_plain (n : Int) : (fmtD n).toList.all plainChar = true := by
  have hrepr : ∀ m : Nat, (Nat.repr m).toList.all plainChar = true := by
    intro m
    exact toDigitsCore_plain _ _ [] rfl
  unfold fmtD
  split
  · rw [String.toList, String.data_append, List.all_append]
    have := hrepr n.natAbs
    rw [String.toList] at this
    rw [this]
    decide
  · exact hrepr _

theorem filterText_plain (params : repo.GetAllCommentsParams) :
    (commentRepo.filterText params).toList.all plainChar = true := by
  have hf := fun n => fmtD_plain n
  simp only [String.toList] at hf
  unfold commentRepo.filterText
  by_cases hu : params.UserID = 0 <;> by_cases hp : params.PostID = 0 <;>
    simp only [hu, hp, ne_eq, not_true_eq_false, not_false_eq_true, if_true, if_false,
      String.toList, String.data_append, List.all_append, hf, Bool.and_true, Bool.true_and] <;>
    decide

theorem countText_lacks (params : repo.GetAllCommentsParams) (pat : List Char) (x y : Char)
    (hx : plainChar x = false) (hpat : hasPair x y pat = true)
    (hhead : hasPair x y countHead.toList = false) (hlast : countHead.toList.getLast? ≠ some x) :
    ¬ pat <:+: (commentRepo.queryCountText params).toList := by
  intro hi
  have hall := filterText_plain params
  have hb : x ∉ (commentRepo.filterText params).toList := by
    intro hm
    have := List.all_eq_true.mp hall x hm
    rw [hx] at this
    cases this
  have htext : (commentRepo.queryCountText params).toList
      = countHead.toList ++ (commentRepo.filterText params).toList := by
    unfold commentRepo.queryCountText
    simp only [String.toList, String.data_append]
  rw [htext] at hi
  rcases hasPair_append_absent x y _ _ hb (hasPair_mono x y _ _ hi hpat) with h | h
  · rw [hhead] at h
    cases h
  · exact hlast h

theorem selected_conds (db : DB) (params : repo.GetAllCommentsParams) :
    selected db (commentRepo.conds params)
      = (joined db).filter (passes params.UserID params.PostID) := by
  unfold selected
  congr 1
  funext r
  unfold commentRepo.conds passes
  by_cases hu : params.UserID = 0 <;> by_cases hp : params.PostID = 0 <;>
    simp [hu, hp, Cond.holds]

theorem GetAll_count (db : DB) (faultList faultCount : Option Err)
    (params : repo.GetAllCommentsParams) (r : repo.GetAllCommentsResult)
    (h : commentRepo.GetAll db faultList faultCount params = .ok r) :
    r.Count = runCount db (commentRepo.conds params) := by
  unfold commentRepo.GetAll at h
  split at h
  · cases h
  · split at h
    · cases h
    · split at h
      · cases h
      · injection h with h
        rw [← h]

/-- C5: the filter text is `" WHERE true "` followed by one `c.user_id`
equality exactly when `UserID` is not 0 and one `c.post_id` equality exactly
when `PostID` is not 0; with both 0 it is `" WHERE true "` alone and the backend
sees no condition; the list query and the count query carry the same filter
text, the count query carries nothing else after its fixed head, contains
neither `LIMIT` nor `OFFSET` and does not depend on page and limit; the count of every successful `GetAll` is the number
of joined rows that pass the filters, zero meaning "no filter". -/
theorem C5_filter_and_count (db : DB) (faultList faultCount : Option Err)
    (params : repo.GetAllCommentsParams) (p l : Int) :
    commentRepo.filterText params
        = " WHERE true "
          ++ (if params.UserID ≠ 0 then " AND c.user_id=" ++ fmtD params.UserID ++ " " else "")
          ++ (if params.PostID ≠ 0 then " AND c.post_id=" ++ fmtD params.PostID ++ " " else "")
    ∧ commentRepo.conds params
        = (if params.UserID ≠ 0 then [Cond.userID params.UserID] else [])
          ++ (if params.PostID ≠ 0 then [Cond.postID params.PostID] else [])
    ∧ commentRepo.filterText params = renderFilter (commentRepo.conds params)
    ∧ commentRepo.filterText { params with UserID := 0, PostID := 0 } = " WHERE true "
    ∧ commentRepo.conds { params with UserID := 0, PostID := 0 } = []
    ∧ commentRepo.queryText params
        = listHead ++ commentRepo.filterText params ++ "\n\t\tORDER BY c.created_at desc"
          ++ commentRepo.limitText params
    ∧ commentRepo.queryCountText params = countHead ++ commentRepo.filterText params
    ∧ commentRepo.queryCountText { params with Page := p, Limit := l }
        = commentRepo.queryCountText params
    ∧ ¬ "LIMIT".toList <:+: (commentRepo.queryCountText params).toList
    ∧ ¬ "OFFSET".toList <:+: (commentRepo.queryCountText params).toList
    ∧ (∀ r, commentRepo.GetAll db faultList faultCount params = .ok r →
        r.Count = (((joined db).filter (passes params.UserID params.PostID)).length : Int))
    ∧ (∀ r, commentRepo.GetAll db faultList faultCount { params with UserID := 0, PostID := 0 }
          = .ok r → r.Count = ((joined db).length : Int))
    ∧ (∀ r r', commentRepo.GetAll db faultList faultCount params = .ok r →
        commentRepo.GetAll db faultList faultCount { params with Page := p, Limit := l } = .ok r' →
        r'.Count = r.Count) := by
  refine ⟨?_, rfl, (renderFilter_conds params).symm, rfl, rfl, rfl, rfl, rfl,
    countText_lacks params _ 'L' 'I' (by decide) (by decide) (by decide) (by decide),
    countText_lacks params _ 'F' 'F' (by decide) (by decide) (by decide) (by decide), ?_, ?_, ?_⟩
  · unfold commentRepo.filterText
    by_cases hu : params.UserID = 0 <;> by_cases hp : params.PostID = 0 <;> simp [hu, hp]
  · intro r h
    rw [GetAll_count db faultList faultCount params r h, runCount, selected_conds]
  · intro r h
    rw [GetAll_count db faultList faultCount _ r h, runCount, selected_conds]
    simp [passes]
  · intro r r' h h'
    rw [GetAll_count db faultList faultCount _ r h, GetAll_count db faultList faultCount _ r' h']
    rfl

/-- The unfiltered listing of a database that holds a comment with user id 0
returns all three comments and counts three: the zero filter matches nothing
in particular. -/
theorem zero_filter_lists_everything :
    commentRepo.GetAll dbZero none none { Page := 1, Limit := 10, UserID := 0, PostID := 0 }
      = .ok { Comments := some [commentRepo.scanRow (rowZero, nobody),
                                commentRepo.scanRow (row2, alice),
                                commentRepo.scanRow (row1, alice)], Count := 3 } := by
  decide

/-! ## Validating the listing query -/

theorem Atoi_ok_iff (s : String) :
    (∃ n, Atoi s = .ok n)
      ↔ decimalInteger s = true ∧ minInt ≤ decimalValue s ∧ decimalValue s ≤ maxInt := by
  constructor
  · rintro ⟨n, h⟩
    obtain ⟨h1, h2, h3, h4⟩ := (Atoi_spec s n).mp h
    exact ⟨h1, h2 ▸ h3, h2 ▸ h4⟩
  · rintro ⟨h1, h2, h3⟩
    exact ⟨_, (Atoi_spec s _).mpr ⟨h1, rfl, h2, h3⟩⟩

theorem Atoi_value (s : String) (n : Int) (h : Atoi s = .ok n) : n = decimalValue s :=
  ((Atoi_spec s n).mp h).2.1

/-- The error `Atoi` reports is the first one met from the left: a letter
after digits that still fit 64 bits is a syntax error, a letter after digits
that already left 64 bits comes too late and the error is a range error. -/
theorem Atoi_first_error :
    Atoi digitsThenLetter = .error (.SyntaxErr digitsThenLetter)
    ∧ Atoi overflowThenLetter = .error (.RangeErr overflowThenLetter) := by
  refine ⟨by decide, by decide⟩

theorem readParam_ok_iff (q : List (String × String)) (key : String) (dflt : Int) :
    (∃ n, readParam q key dflt = .ok n)
      ↔ (Query q key ≠ "" → decimalInteger (Query q key) = true
          ∧ minInt ≤ decimalValue (Query q key) ∧ decimalValue (Query q key) ≤ maxInt) := by
  unfold readParam
  by_cases h : Query q key = ""
  · simp only [h, ne_eq, not_true_eq_false, if_false, false_implies, iff_true]
    exact ⟨dflt, rfl⟩
  · simp only [ne_eq, h, not_false_eq_true, if_true, true_implies]
    exact Atoi_ok_iff _

theorem readParam_default (q : List (String × String)) (key : String) (dflt n : Int)
    (h : readParam q key dflt = .ok n) (he : Query q key = "") : n = dflt := by
  unfold readParam at h
  rw [if_neg (by simpa using he)] at h
  injection h with h
  exact h.symm

theorem readParam_range (q : List (String × String)) (key : String) (dflt n : Int)
    (hd : minInt ≤ dflt ∧ dflt ≤ maxInt) (h : readParam q key dflt = .ok n) :
    minInt ≤ n ∧ n ≤ maxInt := by
  unfold readParam at h
  split at h
  · exact Atoi_range _ _ h
  · injection h with h
    rw [← h]
    exact hd

theorem validate_ok_iff (q : List (String × String)) (p : models.GetAllCommentsParams) :
    validateGetAllCommentsParams q = .ok p
      ↔ ∃ limit page userID postID,
          readParam q "limit" 10 = .ok limit ∧ readParam q "page" 1 = .ok page
          ∧ readParam q "user_id" 0 = .ok userID ∧ readParam q "post_id" 0 = .ok postID
          ∧ p = { Limit := wrap32 limit, Page := wrap32 page,
                  UserID := userID, PostID := postID } := by
  unfold validateGetAllCommentsParams
  constructor
  · intro h
    cases h1 : readParam q "limit" 10 with
    | error e => rw [h1] at h; cases h
    | ok limit =>
      cases h2 : readParam q "page" 1 with
      | error e => rw [h1, h2] at h; cases h
      | ok page =>
        cases h3 : readParam q "user_id" 0 with
        | error e => rw [h1, h2, h3] at h; cases h
        | ok userID =>
          cases h4 : readParam q "post_id" 0 with
          | error e => rw [h1, h2, h3, h4] at h; cases h
          | ok postID =>
            rw [h1, h2, h3, h4] at h
            simp only at h
            have h3r := readParam_range q "user_id" 0 userID (by decide) h3
            have h4r := readParam_range q "post_id" 0 postID (by decide) h4
            refine ⟨limit, page, userID, postID, rfl, rfl, rfl, rfl, ?_⟩
            injection h with h'
            rw [← h', wrap64_of_range _ h3r.1 h3r.2, wrap64_of_range _ h4r.1 h4r.2]
  · rintro ⟨limit, page, userID, postID, h1, h2, h3, h4, hp⟩
    have h3r := readParam_range q "user_id" 0 userID (by decide) h3
    have h4r := readParam_range q "post_id" 0 postID (by decide) h4
    rw [h1, h2, h3, h4, hp]
    simp only
    rw [wrap64_of_range _ h3r.1 h3r.2, wrap64_of_range _ h4r.1 h4r.2]

theorem validate_error_iff (q : List (String × String)) :
    (∃ e, validateGetAllCommentsParams q = .error e)
      ↔ ¬ ∃ p, validateGetAllCommentsParams q = .ok p := by
  cases h : validateGetAllCommentsParams q with
  | error e => simp
  | ok p => simp

theorem GetAllComments_of_ok (q : List (String × String)) (faultList faultCount : Option Err)
    (db : DB) (p : models.GetAllCommentsParams) (h : validateGetAllCommentsParams q = .ok p) :
    GetAllComments q faultList faultCount db
      = match commentRepo.GetAll db faultList faultCount (storeParams p) with
        | .error err =>
          { status := StatusInternalServerError, body := .Error err, db := db,
            calls := [.GetAll (storeParams p)] }
        | .ok result =>
          { status := StatusOK, body := .Comments (getCommentsResponse result), db := db,
            calls := [.GetAll (storeParams p)] } := by
  unfold GetAllComments
  rw [h]
  rfl

theorem GetAllComments_calls (q : List (String × String)) (faultList faultCount : Option Err)
    (db : DB) (p : models.GetAllCommentsParams) (h : validateGetAllCommentsParams q = .ok p) :
    (GetAllComments q faultList faultCount db).calls = [.GetAll (storeParams p)] := by
  rw [GetAllComments_of_ok q faultList faultCount db p h]
  split <;> rfl

theorem Atoi_empty : Atoi "" = .error (.SyntaxErr "") := by decide

theorem validate_exists_iff (q : List (String × String)) :
    (∃ p, validateGetAllCommentsParams q = .ok p)
      ↔ (∃ n, readParam q "limit" 10 = .ok n) ∧ (∃ n, readParam q "page" 1 = .ok n)
        ∧ (∃ n, readParam q "user_id" 0 = .ok n) ∧ (∃ n, readParam q "post_id" 0 = .ok n) := by
  constructor
  · rintro ⟨p, hp⟩
    obtain ⟨a, b, c, d, h1, h2, h3, h4, _⟩ := (validate_ok_iff q p).mp hp
    exact ⟨⟨a, h1⟩, ⟨b, h2⟩, ⟨c, h3⟩, ⟨d, h4⟩⟩
  · rintro ⟨⟨a, h1⟩, ⟨b, h2⟩, ⟨c, h3⟩, ⟨d, h4⟩⟩
    exact ⟨_, (validate_ok_iff q _).mpr ⟨a, b, c, d, h1, h2, h3, h4, rfl⟩⟩

/-- C6, as stated, fails: the query `limit=9223372036854775808` has one present
parameter, a decimal integer, and validation fails on it with a range error;
`GetAllComments` answers 400. -/
theorem C6_decimal_integer_out_of_range :
    decimalInteger "9223372036854775808" = true
    ∧ (∀ key ∈ queryKeys, Query hugeLimit key ≠ "" → decimalInteger (Query hugeLimit key) = true)
    ∧ validateGetAllCommentsParams hugeLimit = .error (.RangeErr "9223372036854775808")
    ∧ (GetAllComments hugeLimit none none db2).status = StatusBadRequest := by
  refine ⟨by decide, by decide, by decide, by decide⟩

/-- C6, amended: validation succeeds if and only if every parameter among
limit, page, user_id, post_id that is present and not empty is a decimal
integer whose value fits the 64-bit `int`; on success an absent or empty
parameter has its default (limit 10, page 1, user_id 0, post_id 0); a present
parameter that is not a decimal integer makes validation fail; and when
validation fails `GetAllComments` answers 400 with that error, calls the store
not at all and leaves the database as it was. -/
theorem C6_validation_accepts_in_range_decimals (q : List (String × String))
    (faultList faultCount : Option Err) (db : DB) :
    ((∃ p, validateGetAllCommentsParams q = .ok p)
        ↔ ∀ key ∈ queryKeys, Query q key ≠ "" →
            decimalInteger (Query q key) = true
            ∧ minInt ≤ decimalValue (Query q key) ∧ decimalValue (Query q key) ≤ maxInt)
    ∧ (∀ p, validateGetAllCommentsParams q = .ok p →
        (Query q "limit" = "" → p.Limit = 10) ∧ (Query q "page" = "" → p.Page = 1)
        ∧ (Query q "user_id" = "" → p.UserID = 0) ∧ (Query q "post_id" = "" → p.PostID = 0))
    ∧ (∀ key ∈ queryKeys, Query q key ≠ "" → decimalInteger (Query q key) = false →
        ∃ e, validateGetAllCommentsParams q = .error e)
    ∧ (∀ e, validateGetAllCommentsParams q = .error e →
        GetAllComments q faultList faultCount db
          = { status := StatusBadRequest, body := .Error e, db := db, calls := [] }) := by
  have hiff : (∃ p, validateGetAllCommentsParams q = .ok p)
        ↔ ∀ key ∈ queryKeys, Query q key ≠ "" →
            decimalInteger (Query q key) = true
            ∧ minInt ≤ decimalValue (Query q key) ∧ decimalValue (Query q key) ≤ maxInt := by
    rw [validate_exists_iff, readParam_ok_iff, readParam_ok_iff, readParam_ok_iff,
      readParam_ok_iff]
    simp only [queryKeys, List.forall_mem_cons, List.not_mem_nil, false_implies, implies_true,
      and_true]
  refine ⟨hiff, ?_, ?_, ?_⟩
  · intro p hp
    obtain ⟨a, b, c, d, h1, h2, h3, h4, rfl⟩ := (validate_ok_iff q p).mp hp
    refine ⟨fun he => ?_, fun he => ?_, fun he => ?_, fun he => ?_⟩
    · rw [readParam_default q _ _ _ h1 he]; rfl
    · rw [readParam_default q _ _ _ h2 he]; rfl
    · exact readParam_default q _ _ _ h3 he
    · exact readParam_default q _ _ _ h4 he
  · intro key hk hne hbad
    rw [validate_error_iff]
    intro hex
    have := (hiff.mp hex key hk hne).1
    rw [hbad] at this
    cases this
  · intro e he
    unfold GetAllComments
    rw [he]

/-! ## Listing comments: positivity and width of page and limit -/

/-- C7, as stated, fails: the query `page=0` is accepted, `GetAllComments`
passes page 0 with the default limit 10 to the store, and the offset the store
computes is −10. -/
theorem C7_page_zero_accepted :
    validateGetAllCommentsParams pageZero
        = .ok { Limit := 10, Page := 0, UserID := 0, PostID := 0 }
    ∧ (GetAllComments pageZero none none db2).calls
        = [StoreCall.GetAll { Page := 0, Limit := 10, UserID := 0, PostID := 0 }]
    ∧ ¬ (1 : Int) ≤ (0 : Int)
    ∧ commentRepo.offset { Page := 0, Limit := 10, UserID := 0, PostID := 0 } = -10
    ∧ commentRepo.limitText { Page := 0, Limit := 10, UserID := 0, PostID := 0 }
        = " LIMIT 10 OFFSET -10 " := by
  refine ⟨by decide, by decide, by decide, by decide, by decide⟩

/-- C7, amended: every parameter record that validation accepts is passed to
the store as it is; its page and limit are `int32` values, the defaults 1 and
10 when the parameter is absent or empty, and nothing checks their sign; when
page ≥ 1, limit ≥ 1 and (page−1)×limit fits `int32`, the offset the store
computes is (page−1)×limit and is not negative. -/
theorem C7_offset_nonneg_for_positive_page_limit (q : List (String × String))
    (faultList faultCount : Option Err) (db : DB) (p : models.GetAllCommentsParams)
    (hv : validateGetAllCommentsParams q = .ok p) :
    (GetAllComments q faultList faultCount db).calls
        = [StoreCall.GetAll { Page := p.Page, Limit := p.Limit, UserID := p.UserID,
                              PostID := p.PostID }]
    ∧ (minInt32 ≤ p.Page ∧ p.Page ≤ maxInt32) ∧ (minInt32 ≤ p.Limit ∧ p.Limit ≤ maxInt32)
    ∧ (Query q "page" = "" → p.Page = 1) ∧ (Query q "limit" = "" → p.Limit = 10)
    ∧ (1 ≤ p.Page → 1 ≤ p.Limit → (p.Page - 1) * p.Limit ≤ maxInt32 →
        commentRepo.offset (storeParams p) = (p.Page - 1) * p.Limit
        ∧ 0 ≤ commentRepo.offset (storeParams p)) := by
  obtain ⟨a, b, c, d, h1, h2, h3, h4, rfl⟩ := (validate_ok_iff q p).mp hv
  refine ⟨GetAllComments_calls q faultList faultCount db _ hv, wrap32_bounds b, wrap32_bounds a,
    ?_, ?_, ?_⟩
  · intro he
    rw [readParam_default q _ _ _ h2 he]; rfl
  · intro he
    rw [readParam_default q _ _ _ h1 he]; rfl
  · intro hp hl hprod
    have hr := wrap32_bounds b
    unfold minInt32 maxInt32 at hr
    dsimp only at hp hl hprod
    have hnn : 0 ≤ (wrap32 b - 1) * wrap32 a := Int.mul_nonneg (by omega) (by omega)
    have ho : commentRepo.offset (storeParams
        { Limit := wrap32 a, Page := wrap32 b, UserID := c, PostID := d })
        = (wrap32 b - 1) * wrap32 a := by
      apply offset_exact
      · show minInt32 ≤ wrap32 b - 1
        unfold minInt32; omega
      · show wrap32 b - 1 ≤ maxInt32
        unfold maxInt32; omega
      · show minInt32 ≤ (wrap32 b - 1) * wrap32 a
        unfold minInt32; omega
      · exact hprod
    exact ⟨ho, ho ▸ hnn⟩

/-- Witness of the amended C7: the empty query, with page 1 and limit 10. -/
theorem C7_default_query_witness :
    validateGetAllCommentsParams [] = .ok { Limit := 10, Page := 1, UserID := 0, PostID := 0 }
    ∧ (GetAllComments [] none none db2).calls
        = [StoreCall.GetAll { Page := 1, Limit := 10, UserID := 0, PostID := 0 }]
    ∧ (minInt32 ≤ (1 : Int) ∧ (1 : Int) ≤ maxInt32) ∧ (minInt32 ≤ (10 : Int) ∧ (10 : Int) ≤ maxInt32)
    ∧ (Query [] "page" = "" → (1 : Int) = 1) ∧ (Query [] "limit" = "" → (10 : Int) = 10)
    ∧ ((1 : Int) ≤ 1 → (1 : Int) ≤ 10 → ((1 : Int) - 1) * 10 ≤ maxInt32 →
        commentRepo.offset (storeParams { Limit := 10, Page := 1, UserID := 0, PostID := 0 })
          = ((1 : Int) - 1) * 10
        ∧ 0 ≤ commentRepo.offset
            (storeParams { Limit := 10, Page := 1, UserID := 0, PostID := 0 })) :=
  ⟨by decide, C7_offset_nonneg_for_positive_page_limit [] none none db2
    { Limit := 10, Page := 1, UserID := 0, PostID := 0 } (by decide)⟩

/-- C10, as stated, fails: in the query
`limit=4294967297&page=1&user_id=42&post_id=5` all four values parse as
integers, and the limit that reaches the store is 1, not 4294967297. -/
theorem C10_limit_truncated_to_32_bits :
    Atoi (Query wideLimit "limit") = .ok 4294967297
    ∧ Atoi (Query wideLimit "page") = .ok 1
    ∧ Atoi (Query wideLimit "user_id") = .ok 42
    ∧ Atoi (Query wideLimit "post_id") = .ok 5
    ∧ (GetAllComments wideLimit none none db2).calls
        = [StoreCall.GetAll { Page := 1, Limit := 1, UserID := 42, PostID := 5 }]
    ∧ (1 : Int) ≠ 4294967297 := by
  refine ⟨by decide, by decide, by decide, by decide, by decide, by decide⟩

/-- C10, amended: for every query whose limit, page, user_id and post_id parse
as integers, the two ids reach the store unchanged and limit and page reach it
reduced to `int32`; when limit and page lie in the `int32` range they reach it
unchanged too, and when moreover page−1 and (page−1)×limit lie in that range
the offset the store computes is exactly (page−1)×limit. -/
theorem C10_values_preserved_within_int32 (q : List (String × String))
    (faultList faultCount : Option Err) (db : DB) (nl np nu npost : Int)
    (hl : Atoi (Query q "limit") = .ok nl) (hp : Atoi (Query q "page") = .ok np)
    (hu : Atoi (Query q "user_id") = .ok nu) (hpost : Atoi (Query q "post_id") = .ok npost) :
    (GetAllComments q faultList faultCount db).calls
        = [StoreCall.GetAll { Page := wrap32 np, Limit := wrap32 nl, UserID := nu,
                              PostID := npost }]
    ∧ (minInt32 ≤ nl → nl ≤ maxInt32 → minInt32 ≤ np → np ≤ maxInt32 →
        (GetAllComments q faultList faultCount db).calls
            = [StoreCall.GetAll { Page := np, Limit := nl, UserID := nu, PostID := npost }]
        ∧ (minInt32 ≤ np - 1 → minInt32 ≤ (np - 1) * nl → (np - 1) * nl ≤ maxInt32 →
            commentRepo.offset { Page := np, Limit := nl, UserID := nu, PostID := npost }
              = (np - 1) * nl)) := by
  have hne : ∀ key n, Atoi (Query q key) = .ok n → Query q key ≠ "" := by
    intro key n h he
    rw [he, Atoi_empty] at h
    cases h
  have hr : ∀ key dflt n, Atoi (Query q key) = .ok n → readParam q key dflt = .ok n := by
    intro key dflt n h
    unfold readParam
    rw [if_pos (hne key n h), h]
  have hv : validateGetAllCommentsParams q
      = .ok { Limit := wrap32 nl, Page := wrap32 np, UserID := nu, PostID := npost } :=
    (validate_ok_iff q _).mpr ⟨nl, np, nu, npost, hr _ _ _ hl, hr _ _ _ hp, hr _ _ _ hu,
      hr _ _ _ hpost, rfl⟩
  have hc := GetAllComments_calls q faultList faultCount db _ hv
  refine ⟨hc, ?_⟩
  intro h1 h2 h3 h4
  rw [hc]
  refine ⟨?_, ?_⟩
  · show [StoreCall.GetAll { Page := wrap32 np, Limit := wrap32 nl, UserID := nu,
                             PostID := npost }] = _
    rw [wrap32_of_range np h3 h4, wrap32_of_range nl h1 h2]
  · intro h5 h6 h7
    exact offset_exact _ h5 (by show np - 1 ≤ maxInt32; omega) h6 h7

/-- Witness of the amended C10: the query
`limit=10&page=2&user_id=42&post_id=5`. -/
theorem C10_second_page_witness :
    Atoi (Query secondPage "limit") = .ok 10 ∧ Atoi (Query secondPage "page") = .ok 2
    ∧ Atoi (Query secondPage "user_id") = .ok 42 ∧ Atoi (Query secondPage "post_id") = .ok 5
    ∧ (GetAllComments secondPage none none db2).calls
        = [StoreCall.GetAll { Page := wrap32 2, Limit := wrap32 10, UserID := 42, PostID := 5 }]
    ∧ (minInt32 ≤ (10 : Int) → (10 : Int) ≤ maxInt32 → minInt32 ≤ (2 : Int) → (2 : Int) ≤ maxInt32 →
        (GetAllComments secondPage none none db2).calls
            = [StoreCall.GetAll { Page := 2, Limit := 10, UserID := 42, PostID := 5 }]
        ∧ (minInt32 ≤ (2 : Int) - 1 → minInt32 ≤ ((2 : Int) - 1) * 10 →
            ((2 : Int) - 1) * 10 ≤ maxInt32 →
            commentRepo.offset { Page := 2, Limit := 10, UserID := 42, PostID := 5 }
              = ((2 : Int) - 1) * 10)) :=
  ⟨by decide, by decide, by decide, by decide,
    C10_values_preserved_within_int32 secondPage none none db2 10 2 42 5 (by decide) (by decide)
      (by decide) (by decide)⟩

/-! ## Translating the store's result -/

theorem getCommentsResponse_some (xs : List repo.Comment) (n : Int) :
    (getCommentsResponse { Comments := some xs, Count := n }).Comments
      = some (xs.map parseCommentModel) := by
  unfold getCommentsResponse sliceElems
  simp only [foldl_sliceAppend, List.nil_append]

/-- C8: for every store result the `comments` array of `getCommentsResponse` is
not nil; it is the empty non-nil array when the store returned a nil or an
empty slice; when the store returned the sequence `xs` it is the sequence of
`parseCommentModel` of the elements of `xs`, of the same length and in the same
order, element by element; `parseCommentModel` copies every field and puts the
comment's user id into the embedded user; and `count` is the store's count. -/
theorem C8_getCommentsResponse_translates (data : repo.GetAllCommentsResult)
    (xs : List repo.Comment) (n : Int) :
    (getCommentsResponse data).Comments ≠ none
    ∧ (getCommentsResponse { Comments := none, Count := n }).Comments = some []
    ∧ (getCommentsResponse { Comments := some [], Count := n }).Comments = some []
    ∧ (getCommentsResponse { Comments := some xs, Count := n }).Comments
        = some (xs.map parseCommentModel)
    ∧ (data.Comments = some xs →
        (getCommentsResponse data).Comments = some (xs.map parseCommentModel))
    ∧ (∃ l, (getCommentsResponse { Comments := some xs, Count := n }).Comments = some l
        ∧ l.length = xs.length
        ∧ ∀ i : Nat, l[i]? = (xs[i]?).map parseCommentModel)
    ∧ (∀ c : repo.Comment,
        (parseCommentModel c).ID = c.ID ∧ (parseCommentModel c).UserID = c.UserID
        ∧ (parseCommentModel c).PostID = c.PostID
        ∧ (parseCommentModel c).Description = c.Description
        ∧ (parseCommentModel c).CreatedAt = c.CreatedAt
        ∧ (parseCommentModel c).UpdatedAt = c.UpdatedAt
        ∧ (parseCommentModel c).User.ID = c.UserID
        ∧ (parseCommentModel c).User.FirstName = c.User.FirstName
        ∧ (parseCommentModel c).User.LastName = c.User.LastName
        ∧ (parseCommentModel c).User.Email = c.User.Email
        ∧ (parseCommentModel c).User.ProfileImageUrl = c.User.ProfileImageUrl)
    ∧ (getCommentsResponse data).Count = data.Count
    ∧ (getCommentsResponse { Comments := some xs, Count := n }).Count = n := by
  refine ⟨?_, rfl, rfl, getCommentsResponse_some xs n, ?_,
    ⟨_, getCommentsResponse_some xs n, ?_, ?_⟩, ?_, rfl, rfl⟩
  · cases data with
    | mk comments count =>
      cases comments with
      | none => exact Option.some_ne_none _
      | some ys =>
        rw [getCommentsResponse_some ys count]
        exact Option.some_ne_none _
  · intro h
    cases data with
    | mk comments count =>
      simp only at h
      rw [h]
      exact getCommentsResponse_some xs count
  · exact List.length_map _ _
  · intro i
    exact List.getElem?_map _ _ _
  · intro c
    exact ⟨rfl, rfl, rfl, rfl, rfl, rfl, rfl, rfl, rfl, rfl, rfl⟩

/-- Witness of C8: a store result of two comments is answered with their two
translations, newest first as the store gave them. -/
theorem C8_two_comments_witness :
    (getCommentsResponse
        { Comments := some [commentRepo.scanRow (row2, alice), commentRepo.scanRow (row1, alice)],
          Count := 2 }).Comments
      = some [parseCommentModel (commentRepo.scanRow (row2, alice)),
              parseCommentModel (commentRepo.scanRow (row1, alice))] :=
  (C8_getCommentsResponse_translates
    { Comments := some [commentRepo.scanRow (row2, alice), commentRepo.scanRow (row1, alice)],
      Count := 2 }
    [commentRepo.scanRow (row2, alice), commentRepo.scanRow (row1, alice)] 2).2.2.2.2.1 rfl

/-! ## Store failures and HTTP statuses -/

/-- C9: for every request that passes validation, `CreateComment` answers 400
when `Create` fails and 201 when it succeeds; `GetAllComments` answers 500 when
`GetAll` fails and 200 when it succeeds; `UpdateComment` answers 500 when
`Update` fails, in particular when no row has the id (then with
`sql.ErrNoRows`, and not 404), and 201 when it succeeds. -/
theorem C9_store_result_to_status (db : DB) (req : models.CreateCommentRequest)
    (payload : Payload) (q : List (String × String)) (p : models.GetAllCommentsParams)
    (hv : validateGetAllCommentsParams q = .ok p) (body : repo.Comment) (s : String) (n : Int)
    (hs : Atoi s = .ok n) :
    (∀ e, (CreateComment (.ok req) (.ok payload) (some e) db).status = StatusBadRequest)
    ∧ (CreateComment (.ok req) (.ok payload) none db).status = StatusCreated
    ∧ (∀ faultList faultCount e,
        commentRepo.GetAll db faultList faultCount (storeParams p) = .error e →
        (GetAllComments q faultList faultCount db).status = StatusInternalServerError)
    ∧ (∀ faultList faultCount r,
        commentRepo.GetAll db faultList faultCount (storeParams p) = .ok r →
        (GetAllComments q faultList faultCount db).status = StatusOK)
    ∧ (∀ fault e, (commentRepo.Update db fault { body with ID := n }).2 = .error e →
        (UpdateComment (.ok body) s fault db).status = StatusInternalServerError
        ∧ (UpdateComment (.ok body) s fault db).status ≠ StatusNotFound)
    ∧ ((∀ r ∈ db.comments, r.id ≠ n) →
        (commentRepo.Update db none { body with ID := n }).2 = .error Err.ErrNoRows
        ∧ (UpdateComment (.ok body) s none db).status = StatusInternalServerError
        ∧ (UpdateComment (.ok body) s none db).body = Body.Error Err.ErrNoRows)
    ∧ (∀ fault r, (commentRepo.Update db fault { body with ID := n }).2 = .ok r →
        (UpdateComment (.ok body) s fault db).status = StatusCreated) := by
  have hw := Atoi_wrap64 s n hs
  have hU : ∀ fault, UpdateComment (.ok body) s fault db
      = match commentRepo.Update db fault { body with ID := n } with
        | (db', .error err) =>
          { status := StatusInternalServerError, body := .Error err, db := db',
            calls := [.Update { body with ID := n }] }
        | (db', .ok updated) =>
          { status := StatusCreated, body := .Comment (parseCommentModel updated), db := db',
            calls := [.Update { body with ID := n }] } := by
    intro fault
    simp only [UpdateComment, hs, hw]
  refine ⟨fun e => rfl, rfl, ?_, ?_, ?_, ?_, ?_⟩
  · intro faultList faultCount e he
    rw [GetAllComments_of_ok q faultList faultCount db p hv, he]
  · intro faultList faultCount r hr
    rw [GetAllComments_of_ok q faultList faultCount db p hv, hr]
  · intro fault e he
    rw [hU fault]
    rcases hres : commentRepo.Update db fault { body with ID := n } with ⟨db', res⟩
    rw [hres] at he
    cases res with
    | error err =>
      refine ⟨rfl, ?_⟩
      show StatusInternalServerError ≠ StatusNotFound
      decide
    | ok r => cases he
  · intro habs
    have hab := Update_absent db { body with ID := n } habs
    refine ⟨hab, ?_, ?_⟩
    · rw [hU none]
      rcases hres : commentRepo.Update db none { body with ID := n } with ⟨db', res⟩
      rw [hres] at hab
      simp only at hab
      rw [hab]
    · rw [hU none]
      rcases hres : commentRepo.Update db none { body with ID := n } with ⟨db', res⟩
      rw [hres] at hab
      simp only at hab
      rw [hab]
  · intro fault r hr
    rw [hU fault]
    rcases hres : commentRepo.Update db fault { body with ID := n } with ⟨db', res⟩
    rw [hres] at hr
    cases res with
    | error err => cases hr
    | ok r' => rfl

/-- Witness of C9: the empty listing query and an update addressed to the
absent id 7 in the two-comment database. -/
theorem C9_status_witness :
    validateGetAllCommentsParams [] = .ok { Limit := 10, Page := 1, UserID := 0, PostID := 0 }
    ∧ Atoi "7" = .ok 7
    ∧ (∀ e, (CreateComment (.ok { Description := "nice post", PostID := 5 })
        (.ok { UserID := 42 }) (some e) db2).status = StatusBadRequest)
    ∧ (CreateComment (.ok { Description := "nice post", PostID := 5 })
        (.ok { UserID := 42 }) none db2).status = StatusCreated
    ∧ (∀ faultList faultCount e,
        commentRepo.GetAll db2 faultList faultCount
          (storeParams { Limit := 10, Page := 1, UserID := 0, PostID := 0 }) = .error e →
        (GetAllComments [] faultList faultCount db2).status = StatusInternalServerError)
    ∧ (∀ faultList faultCount r,
        commentRepo.GetAll db2 faultList faultCount
          (storeParams { Limit := 10, Page := 1, UserID := 0, PostID := 0 }) = .ok r →
        (GetAllComments [] faultList faultCount db2).status = StatusOK)
    ∧ (∀ fault e, (commentRepo.Update db2 fault { body1 with ID := 7 }).2 = .error e →
        (UpdateComment (.ok body1) "7" fault db2).status = StatusInternalServerError
        ∧ (UpdateComment (.ok body1) "7" fault db2).status ≠ StatusNotFound)
    ∧ ((∀ r ∈ db2.comments, r.id ≠ 7) →
        (commentRepo.Update db2 none { body1 with ID := 7 }).2 = .error Err.ErrNoRows
        ∧ (UpdateComment (.ok body1) "7" none db2).status = StatusInternalServerError
        ∧ (UpdateComment (.ok body1) "7" none db2).body = Body.Error Err.ErrNoRows)
    ∧ (∀ fault r, (commentRepo.Update db2 fault { body1 with ID := 7 }).2 = .ok r →
        (UpdateComment (.ok body1) "7" fault db2).status = StatusCreated) :=
  ⟨by decide, by decide,
    C9_store_result_to_status db2 { Description := "nice post", PostID := 5 } { UserID := 42 } []
      { Limit := 10, Page := 1, UserID := 0, PostID := 0 } (by decide) body1 "7" 7 (by decide)⟩

/-! ## The two scenarios of the specification -/

/-- Creating `description: "nice post", post_id: 5` as user 42 on an empty
comments table answers 201 with comment 1 of user 42 on post 5. -/
theorem scenario_create :
    (CreateComment (.ok { Description := "nice post", PostID := 5 }) (.ok { UserID := 42 })
        none db0).status = StatusCreated
    ∧ (CreateComment (.ok { Description := "nice post", PostID := 5 }) (.ok { UserID := 42 })
        none db0).body
      = Body.Comment
          { ID := 1, UserID := 42, PostID := 5, Description := "nice post", CreatedAt := 1000,
            UpdatedAt := none,
            User := { ID := 42, FirstName := "", LastName := "", Email := "",
                      ProfileImageUrl := "" } } := by
  decide

/-- Listing `post_id=5&limit=1&page=1` over two comments on post 5 answers 200
with the newest comment alone and the count 2. -/
theorem scenario_list :
    (GetAllComments [("post_id", "5"), ("limit", "1"), ("page", "1")] none none db2).status
        = StatusOK
    ∧ (GetAllComments [("post_id", "5"), ("limit", "1"), ("page", "1")] none none db2).body
      = Body.Comments
          { Comments := some [parseCommentModel (commentRepo.scanRow (row2, alice))],
            Count := 2 } := by
  decide

end Blog
